import Mathlib

/-!
# TruthLens backend — shallow embedding and verification

This file embeds the analytics-aggregation and article-versioning core of the
TruthLens backend (src/server/storage.ts, src/server/api/versions.ts,
src/shared/schema.ts) as executable Lean definitions and proves or refutes the
specification's claims about it.

Conventions of the embedding:
* Database tables become Lean lists of row structures; `serial` ids and
  timestamps become `Nat` values passed explicitly (the ambient clock
  `new Date()` becomes an explicit `now`/`today` argument).
* JavaScript truthiness tests on optional numbers (`if (x)`, `x || 0`) are
  embedded by `truthyInt` / `orZeroInt`.
* `Math.round(a / b)` on integers with `b > 0` is embedded by `jsRound`
  (floor of `a / b + 1/2`, which is what `Math.round` computes here).
* Read-then-write storage methods are split into an explicit read phase and a
  write phase; the sequential method is the composition of the two. This lets
  interleavings of concurrent calls be expressed by reordering the phases.
-/

namespace TruthLens

/-! ## Generic list machinery: insertion sort by a `Nat` key, descending

`ORDER BY <key> DESC` is embedded as an insertion sort on a key function.
Tie order is unspecified in SQL; the spec accepts any order on exact ties.
-/

variable {α : Type}

/-- Insert `x` into `l`, keeping `l` ordered by `k` descending. -/
def insertKeyDesc (k : α → Nat) (x : α) : List α → List α
  | [] => [x]
  | y :: ys => if k y ≤ k x then x :: y :: ys else y :: insertKeyDesc k x ys

/-- Sort a list by `k` descending (embeds `ORDER BY k DESC`). -/
def sortKeyDesc (k : α → Nat) : List α → List α
  | [] => []
  | x :: xs => insertKeyDesc k x (sortKeyDesc k xs)

theorem perm_insertKeyDesc (k : α → Nat) (x : α) (l : List α) :
    List.Perm (insertKeyDesc k x l) (x :: l) := by
  induction l with
  | nil => simp [insertKeyDesc]
  | cons y ys ih =>
    simp only [insertKeyDesc]
    split
    · exact List.Perm.refl _
    · exact ((ih.cons y).trans (List.Perm.swap x y ys))

theorem perm_sortKeyDesc (k : α → Nat) (l : List α) :
    List.Perm (sortKeyDesc k l) l := by
  induction l with
  | nil => simp [sortKeyDesc]
  | cons x xs ih =>
    exact (perm_insertKeyDesc k x (sortKeyDesc k xs)).trans (ih.cons x)

theorem mem_sortKeyDesc (k : α → Nat) (l : List α) (x : α) :
    x ∈ sortKeyDesc k l ↔ x ∈ l :=
  (perm_sortKeyDesc k l).mem_iff

theorem pairwise_insertKeyDesc (k : α → Nat) (x : α) (l : List α)
    (h : List.Pairwise (fun a b => k b ≤ k a) l) :
    List.Pairwise (fun a b => k b ≤ k a) (insertKeyDesc k x l) := by
  induction l with
  | nil => simp [insertKeyDesc]
  | cons y ys ih =>
    rcases List.pairwise_cons.mp h with ⟨hy, hys⟩
    simp only [insertKeyDesc]
    by_cases hle : k y ≤ k x
    · rw [if_pos hle]
      refine List.pairwise_cons.mpr ⟨?_, h⟩
      intro z hz
      rcases List.mem_cons.mp hz with rfl | hz
      · exact hle
      · exact le_trans (hy _ hz) hle
    · rw [if_neg hle]
      refine List.pairwise_cons.mpr ⟨?_, ih hys⟩
      intro z hz
      rcases List.mem_cons.mp ((perm_insertKeyDesc k x ys).mem_iff.mp hz) with rfl | hz
      · omega
      · exact hy _ hz

theorem pairwise_sortKeyDesc (k : α → Nat) (l : List α) :
    List.Pairwise (fun a b => k b ≤ k a) (sortKeyDesc k l) := by
  induction l with
  | nil => simp [sortKeyDesc]
  | cons x xs ih => exact pairwise_insertKeyDesc k x _ ih

/-- The head of a descending sort dominates every element of the list. -/
theorem head_sortKeyDesc_is_max (k : α → Nat) (l : List α) (h : α) (t : List α)
    (hsort : sortKeyDesc k l = h :: t) :
    h ∈ l ∧ ∀ x ∈ l, k x ≤ k h := by
  have hperm := perm_sortKeyDesc k l
  rw [hsort] at hperm
  constructor
  · exact hperm.mem_iff.mp (List.mem_cons_self h t)
  · intro x hx
    have hx' : x ∈ h :: t := hperm.mem_iff.mpr hx
    rcases List.mem_cons.mp hx' with rfl | hx'
    · exact le_refl _
    · have hp := pairwise_sortKeyDesc k l
      rw [hsort] at hp
      exact (List.pairwise_cons.mp hp).1 x hx'

/-! ## JavaScript numeric helpers -/

/-- JS truthiness of an optional integer: `undefined`, `null` and `0` are falsy. -/
def truthyInt : Option Int → Bool
  | none => false
  | some t => t != 0

/-- JS `x || 0` on an optional integer. -/
def orZeroInt : Option Int → Int
  | none => 0
  | some t => if t == 0 then 0 else t

/-- JS `Math.round(a / b)` for integers with `b > 0`: floor of `a/b + 1/2`. -/
def jsRound (a b : Int) : Int := Int.fdiv (2 * a + b) (2 * b)

/-! ## Daily Article Stats (table `daily_article_stats`, schema.ts)

A row of the daily aggregate table. `date` is the calendar day (already
truncated by the caller, as `today.setHours(0,0,0,0)` does in storage.ts);
`updatedAt` is a timestamp. Both are embedded as `Nat`.
-/

structure StatRow where
  id : Nat
  articleId : Nat
  date : Nat
  views : Nat
  shares : Nat
  bounces : Nat
  averageTimeOnPage : Int
  updatedAt : Nat
deriving Repr, DecidableEq

/-- The daily-stats table: its rows plus the next `serial` id. -/
structure StatsDb where
  rows : List StatRow
  nextId : Nat
deriving Repr, DecidableEq

def StatsDb.empty : StatsDb := ⟨[], 0⟩

/-- The read phase shared by all three recorders: `select ... where
articleId = aid and date = d`, taking the first row as `[existingStat]` does. -/
def readStat (db : StatsDb) (aid d : Nat) : Option StatRow :=
  db.rows.find? (fun r => r.articleId == aid && r.date == d)

/-- SQL `insert into dailyArticleStats values (...)`. -/
def insertStat (db : StatsDb) (aid d : Nat) (v s b : Nat) (avg : Int)
    (now : Nat) : StatsDb :=
  ⟨db.rows ++ [⟨db.nextId, aid, d, v, s, b, avg, now⟩], db.nextId + 1⟩

/-- SQL `update dailyArticleStats set ... where id = target` applied via `f`. -/
def updateStat (db : StatsDb) (target : Nat) (f : StatRow → StatRow) : StatsDb :=
  ⟨db.rows.map (fun r => if r.id == target then f r else r), db.nextId⟩

/-- Write phase of `recordArticleView` (storage.ts:290-309), parameterised by
the row the read phase returned. -/
def viewWrite (db : StatsDb) (aid d now : Nat) (r : Option StatRow) : StatsDb :=
  match r with
  | some st =>
    updateStat db st.id (fun row => { row with views := st.views + 1, updatedAt := now })
  | none => insertStat db aid d 1 0 0 0 now

/-- Effect of `recordArticleView` on the daily-stats table (storage.ts:273-312):
read the (articleId, today) row, then increment `views` or insert a fresh row. -/
def recordArticleView (db : StatsDb) (aid d now : Nat) : StatsDb :=
  viewWrite db aid d now (readStat db aid d)

/-- Write phase of `recordArticleBounce` (storage.ts:331-359). The running
average is recomputed only when `bounceData.timeOnPage` is truthy. -/
def bounceWrite (db : StatsDb) (aid d : Nat) (sample : Option Int) (now : Nat)
    (r : Option StatRow) : StatsDb :=
  match r with
  | some st =>
    let newBounces := st.bounces + 1
    let newAvgTime :=
      if truthyInt sample then
        jsRound (st.averageTimeOnPage * (st.bounces : Int) + sample.getD 0)
          (newBounces : Int)
      else st.averageTimeOnPage
    updateStat db st.id
      (fun row => { row with bounces := newBounces, averageTimeOnPage := newAvgTime,
                             updatedAt := now })
  | none => insertStat db aid d 0 0 1 (orZeroInt sample) now

/-- Effect of `recordArticleBounce` on the daily-stats table (storage.ts:314-362). -/
def recordArticleBounce (db : StatsDb) (aid d : Nat) (sample : Option Int)
    (now : Nat) : StatsDb :=
  bounceWrite db aid d sample now (readStat db aid d)

/-- Write phase of `recordSocialShare` (storage.ts:381-400). -/
def shareWrite (db : StatsDb) (aid d now : Nat) (r : Option StatRow) : StatsDb :=
  match r with
  | some st =>
    updateStat db st.id (fun row => { row with shares := st.shares + 1, updatedAt := now })
  | none => insertStat db aid d 0 1 0 0 now

/-- Effect of `recordSocialShare` on the daily-stats table (storage.ts:364-403). -/
def recordSocialShare (db : StatsDb) (aid d now : Nat) : StatsDb :=
  shareWrite db aid d now (readStat db aid d)

/-- Rows of the table matching an (articleId, day) key. -/
def statRowsFor (db : StatsDb) (aid d : Nat) : List StatRow :=
  db.rows.filter (fun r => r.articleId == aid && r.date == d)

/-- The state after `recordArticleView` runs `m` times sequentially for one article-day. -/
def iterateViews (db : StatsDb) (aid d now : Nat) : Nat → StatsDb
  | 0 => db
  | m + 1 => recordArticleView (iterateViews db aid d now m) aid d now

/-! ## Content store rows (schema.ts)

Nullable columns become `Option`; timestamps become `Nat`.
-/

structure Topic where
  id : Nat
  name : String
  description : Option String
  slug : String
  createdAt : Nat
  updatedAt : Nat
deriving Repr, DecidableEq

structure Article where
  id : Nat
  title : String
  slug : String
  description : Option String
  content : String
  topicId : Option Nat
  authorId : Option Nat
  status : String
  publishedAt : Option Nat
  createdAt : Nat
  updatedAt : Nat
deriving Repr, DecidableEq

structure Reference where
  id : Nat
  articleId : Nat
  title : String
  url : Option String
  description : Option String
  createdAt : Nat
  updatedAt : Nat
deriving Repr, DecidableEq

structure VersionRow where
  id : Nat
  articleId : Nat
  title : String
  description : Option String
  content : String
  versionNumber : Nat
  createdById : Option Nat
  createdAt : Nat
deriving Repr, DecidableEq

/-- A view-log row (table `article_views`); client metadata columns are
irrelevant to the claims and omitted from the row beyond the timestamp. -/
structure ViewRow where
  id : Nat
  articleId : Nat
  viewedAt : Nat
deriving Repr, DecidableEq

/-- The content-store tables plus the next `serial` id for version rows. -/
structure Db where
  topics : List Topic
  articles : List Article
  references : List Reference
  versions : List VersionRow
  nextVersionId : Nat
deriving Repr, DecidableEq

/-! ## Storage operations (storage.ts) -/

/-- Storage `getArticle` (storage.ts:137-140): first row with the id. -/
def getArticle (db : Db) (id : Nat) : Option Article :=
  db.articles.find? (fun a => a.id == id)

/-- Storage `getArticleVersions` (storage.ts:251-257): the article's versions,
`ORDER BY versionNumber DESC`. -/
def getArticleVersions (db : Db) (articleId : Nat) : List VersionRow :=
  sortKeyDesc (fun v => v.versionNumber)
    (db.versions.filter (fun v => v.articleId == articleId))

/-- Storage `getArticleVersion` (storage.ts:259-265): lookup by version id. -/
def getArticleVersion (db : Db) (id : Nat) : Option VersionRow :=
  db.versions.find? (fun v => v.id == id)

/-- The data `createArticleVersion` receives (InsertArticleVersion). -/
structure VersionInsert where
  articleId : Nat
  title : String
  description : Option String
  content : String
  versionNumber : Nat
  createdById : Option Nat
deriving Repr, DecidableEq

/-- Storage `createArticleVersion` (storage.ts:267-270): insert one version row,
returning it. -/
def createArticleVersion (db : Db) (data : VersionInsert) (now : Nat) :
    Db × VersionRow :=
  let row : VersionRow :=
    ⟨db.nextVersionId, data.articleId, data.title, data.description,
     data.content, data.versionNumber, data.createdById, now⟩
  ({ db with versions := db.versions ++ [row], nextVersionId := db.nextVersionId + 1 },
   row)

/-- A `Partial<InsertArticle>` carrying the fields restore passes
(`title`, `description`, `content`); `none` means the field is absent. -/
structure ArticleUpdate where
  title : Option String
  description : Option (Option String)
  content : Option String
deriving Repr, DecidableEq

/-- Storage `updateArticle` (storage.ts:208-215): set the given fields plus
`updatedAt`, `WHERE id = target`; returns the updated row if any. -/
def updateArticle (db : Db) (id : Nat) (u : ArticleUpdate) (now : Nat) :
    Db × Option Article :=
  let apply := fun (a : Article) =>
    { a with title := u.title.getD a.title,
             description := u.description.getD a.description,
             content := u.content.getD a.content,
             updatedAt := now }
  let db' := { db with
    articles := db.articles.map (fun a => if a.id == id then apply a else a) }
  (db', (db.articles.find? (fun a => a.id == id)).map apply)

/-- Storage `deleteArticle` (storage.ts:217-220): delete the row, return `true`
unconditionally. References, versions and engagement rows are removed by the
schema's `onDelete: 'cascade'` foreign keys (schema.ts). -/
def deleteArticle (db : Db) (id : Nat) : Db × Bool :=
  ({ db with
      articles := db.articles.filter (fun a => a.id != id),
      references := db.references.filter (fun r => r.articleId != id),
      versions := db.versions.filter (fun v => v.articleId != id) },
   true)

/-- Storage `deleteTopic` (storage.ts:131-134): delete the row, return `true`
unconditionally. Articles keep existing with `topicId` cleared per the
schema's `onDelete: 'set null'` (schema.ts). -/
def deleteTopic (db : Db) (id : Nat) : Db × Bool :=
  ({ db with
      topics := db.topics.filter (fun t => t.id != id),
      articles := db.articles.map (fun a =>
        if a.topicId == some id then { a with topicId := none } else a) },
   true)

/-- Storage `deleteReference` (storage.ts:245-248): delete the row, return `true`
unconditionally. -/
def deleteReference (db : Db) (id : Nat) : Db × Bool :=
  ({ db with references := db.references.filter (fun r => r.id != id) }, true)

/-! ## Version API route handlers (src/server/api/versions.ts) -/

/-- The error signals the version routes can return (their 404s). Both the
"version does not exist" and the "version belongs to another article" cases
return the same `versionNotFound` signal ("Version not found for this
article"). -/
inductive ApiError where
  | articleNotFound
  | versionNotFound
deriving Repr, DecidableEq

/-- JS `versions[0]?.versionNumber || 0` (versions.ts:39,112): the head's
version number, `0` when there is no head. (JS `|| 0` also maps an explicit
`0` to `0`, which coincides.) -/
def orZeroNat : Option Nat → Nat
  | none => 0
  | some n => n

/-- The read phase of version creation: `latestVersion` as computed from the
current state (versions.ts:38-39). -/
def latestVersionNumber (db : Db) (articleId : Nat) : Nat :=
  orZeroNat ((getArticleVersions db articleId).head?.map (fun v => v.versionNumber))

/-- The body fields of a version-creation request. -/
structure VersionPayload where
  title : String
  description : Option String
  content : String
  createdById : Option Nat
deriving Repr, DecidableEq

/-- The write phase of version creation: insert a row numbered `n + 1`
(versions.ts:42-49), where `n` is a previously read latest version number. -/
def versionWritePhase (db : Db) (articleId : Nat) (p : VersionPayload)
    (n : Nat) (now : Nat) : Db × VersionRow :=
  createArticleVersion db
    ⟨articleId, p.title, p.description, p.content, n + 1, p.createdById⟩ now

/-- Route `POST /:articleId/versions` (versions.ts:28-58): check the article
exists, read the latest version number, insert a row numbered latest + 1. -/
def createVersionHandler (db : Db) (articleId : Nat) (p : VersionPayload)
    (now : Nat) : Except ApiError (Db × VersionRow) :=
  match getArticle db articleId with
  | none => .error .articleNotFound
  | some _ => .ok (versionWritePhase db articleId p (latestVersionNumber db articleId) now)

/-- Route `GET /:articleId/versions/:versionId` (versions.ts:61-83). -/
def getVersionHandler (db : Db) (articleId versionId : Nat) :
    Except ApiError VersionRow :=
  match getArticle db articleId with
  | none => .error .articleNotFound
  | some _ =>
    match getArticleVersion db versionId with
    | none => .error .versionNotFound
    | some v =>
      if v.articleId ≠ articleId then .error .versionNotFound else .ok v

/-- The successful response of the restore route: the new database state, the
updated article as returned by `updateArticle`, and `restoredFromVersion`. -/
structure RestoreResult where
  db : Db
  updatedArticle : Option Article
  restoredFromVersion : Nat
deriving Repr, DecidableEq

/-- Route `POST /:articleId/restore/:versionId` (versions.ts:86-132): check article
and version (the version must belong to the article), overwrite the article's
title/description/content from the version, then append a new version, again
numbered latest + 1, carrying the target version's fields. -/
def restoreHandler (db : Db) (articleId versionId : Nat)
    (userId : Option Nat) (now : Nat) : Except ApiError RestoreResult :=
  match getArticle db articleId with
  | none => .error .articleNotFound
  | some _ =>
    match getArticleVersion db versionId with
    | none => .error .versionNotFound
    | some v =>
      if v.articleId ≠ articleId then .error .versionNotFound
      else
        let du := updateArticle db articleId
          ⟨some v.title, some v.description, some v.content⟩ now
        let latest := latestVersionNumber du.1 articleId
        let dv := createArticleVersion du.1
          ⟨articleId, v.title, v.description, v.content, latest + 1, userId⟩ now
        .ok ⟨dv.1, du.2, v.versionNumber⟩

/-- The version numbers of an article, ordered ascending by versionNumber —
"fetching all versions ordered by versionNumber" in the spec's invariant. -/
def versionNumsAsc (db : Db) (articleId : Nat) : List Nat :=
  ((getArticleVersions db articleId).map (fun v => v.versionNumber)).reverse

/-! ## Case-insensitive substring search

`getArticles` builds `%${search}%` and matches with `ILIKE`
(storage.ts:171-176). For a search string containing no SQL wildcard
metacharacter (`%`, `_`), `col ILIKE '%search%'` is exactly case-insensitive
substring containment, embedded here over lower-cased character lists.
-/

def lowerChars (s : String) : List Char := s.data.map Char.toLower

/-- Whether `pat` is a leading segment of `hay`. -/
def leadsWith : List Char → List Char → Bool
  | _, [] => true
  | [], _ :: _ => false
  | c :: cs, p :: ps => c == p && leadsWith cs ps

/-- Whether `pat` occurs contiguously somewhere in `hay`. -/
def containsSeq : List Char → List Char → Bool
  | [], pat => pat.isEmpty
  | c :: cs, pat => leadsWith (c :: cs) pat || containsSeq cs pat

/-- Case-insensitive substring containment: `hay ILIKE '%pat%'`. -/
def ciContains (hay pat : String) : Bool :=
  containsSeq (lowerChars hay) (lowerChars pat)

/-! ## `getArticles` (storage.ts:147-201) -/

structure GetArticlesOptions where
  topicId : Option Nat
  status : Option String
  authorId : Option Nat
  search : Option String
  limit : Option Nat
  offset : Option Nat
deriving Repr, DecidableEq

/-- A filter on a `Nat` option against a nullable integer column: skipped for
JS-falsy values (`undefined`, `0`), otherwise `eq(column, value)`. -/
def condNat (opt : Option Nat) (col : Option Nat) : Bool :=
  match opt with
  | none => true
  | some t => t == 0 || col == some t

/-- A filter on a `String` option against a text column: skipped for JS-falsy
values (`undefined`, `""`), otherwise `eq(column, value)`. -/
def condStr (opt : Option String) (col : String) : Bool :=
  match opt with
  | none => true
  | some s => s == "" || col == s

/-- The free-text condition (storage.ts:174): title, description or content
matches; a `NULL` description matches nothing (`NULL ILIKE p` is not true). -/
def matchesSearch (search : String) (a : Article) : Bool :=
  ciContains a.title search ||
  (match a.description with
   | none => false
   | some d => ciContains d search) ||
  ciContains a.content search

/-- The conjunction of the four optional filters — the `whereClause` built at
storage.ts:157-180, shared by the count query and the page query. -/
def articleMatches (o : GetArticlesOptions) (a : Article) : Bool :=
  condNat o.topicId a.topicId &&
  condStr o.status a.status &&
  condNat o.authorId a.authorId &&
  (match o.search with
   | none => true
   | some s => s == "" || matchesSearch s a)

structure ArticlesPage where
  articles : List Article
  total : Nat
deriving Repr, DecidableEq

/-- Storage `getArticles`: total over the filter predicate, page ordered
`ORDER BY updatedAt DESC` with `LIMIT` (default 10) and `OFFSET` (default 0). -/
def getArticles (db : Db) (o : GetArticlesOptions) : ArticlesPage :=
  let matching := db.articles.filter (articleMatches o)
  ⟨((sortKeyDesc (fun a => a.updatedAt) matching).drop (o.offset.getD 0)).take
      (o.limit.getD 10),
   matching.length⟩

/-! ## Overview top articles (storage.ts:469-481) -/

/-- The raw view-log count of an article. -/
def viewCount (vs : List ViewRow) (aid : Nat) : Nat :=
  (vs.filter (fun v => v.articleId == aid)).length

structure TopArticleEntry where
  id : Nat
  title : String
  views : Nat
deriving Repr, DecidableEq

/-- The `topArticles` component of `getOverviewStats`: inner join of the view
log against articles, grouped by article id and title, counted, ordered by
count descending, limited to 5. The query carries no date condition — the
route's `startDate`/`endDate` never reach it. -/
def overviewTopArticles (arts : List Article) (vs : List ViewRow) :
    List TopArticleEntry :=
  (sortKeyDesc (fun e => e.views)
    ((arts.filter (fun a => decide (0 < viewCount vs a.id))).map
      (fun a => ⟨a.id, a.title, viewCount vs a.id⟩))).take 5

/-- Inclusive membership of a view in an optional date range. -/
def viewInRange (startDate endDate : Option Nat) (v : ViewRow) : Bool :=
  (match startDate with
   | none => true
   | some s => decide (s ≤ v.viewedAt)) &&
  (match endDate with
   | none => true
   | some e => decide (v.viewedAt ≤ e))

/-- Modelled from the spec: the top 5 articles "by raw view-log count within
the date range" — the same grouped ranking computed over only the view rows
whose timestamp lies in the inclusive range. The spec's claim is that
`getOverviewStats` returns this; the source's query (`overviewTopArticles`)
is compared against it. -/
def topArticlesByViewsWithinRange (arts : List Article) (vs : List ViewRow)
    (startDate endDate : Option Nat) : List TopArticleEntry :=
  overviewTopArticles arts (vs.filter (viewInRange startDate endDate))

/-! ## Helper lemmas about the daily-stats table -/

/-- Lookup of a stats row by its `serial` id. -/
def findRowById (db : StatsDb) (i : Nat) : Option StatRow :=
  db.rows.find? (fun r => r.id == i)

theorem find?_id_map_update (rows : List StatRow) (target : Nat)
    (f : StatRow → StatRow) (hid : ∀ r, (f r).id = r.id) :
    (rows.map (fun r => if r.id == target then f r else r)).find?
        (fun r => r.id == target)
      = (rows.find? (fun r => r.id == target)).map f := by
  induction rows with
  | nil => rfl
  | cons r rs ih =>
    simp only [List.map_cons]
    by_cases h : (r.id == target) = true
    · rw [if_pos h]
      have hfr : ((f r).id == target) = true := by rw [hid]; exact h
      simp only [List.find?_cons, hfr, h, Option.map_some']
    · have h' : (r.id == target) = false := by simpa using h
      rw [if_neg h]
      simp only [List.find?_cons, h']
      exact ih

theorem findRowById_updateStat (db : StatsDb) (target : Nat)
    (f : StatRow → StatRow) (hid : ∀ r, (f r).id = r.id) :
    findRowById (updateStat db target f) target = (findRowById db target).map f :=
  find?_id_map_update db.rows target f hid

/-- A row read back by `readStat` is a member of the table. -/
theorem readStat_mem (db : StatsDb) (aid d : Nat) (st : StatRow)
    (h : readStat db aid d = some st) : st ∈ db.rows :=
  List.mem_of_find?_eq_some h

/-- If its id is present, `findRowById` finds something. -/
theorem findRowById_isSome_of_mem (db : StatsDb) (st : StatRow)
    (h : st ∈ db.rows) : (findRowById db st.id).isSome := by
  unfold findRowById
  exact List.find?_isSome.mpr ⟨st, h, by simp⟩

/-- When the read phase sees no row, the table has no (aid, d) row at all, and
an insert makes the new row the unique (aid, d) row. -/
theorem statRowsFor_insert_of_none (db : StatsDb) (aid d v s b : Nat)
    (avg : Int) (now : Nat) (h : readStat db aid d = none) :
    statRowsFor (insertStat db aid d v s b avg now) aid d
      = [⟨db.nextId, aid, d, v, s, b, avg, now⟩] := by
  unfold statRowsFor insertStat
  simp only [List.filter_append]
  have hnil : db.rows.filter (fun r => r.articleId == aid && r.date == d) = [] := by
    rw [List.filter_eq_nil_iff]
    exact List.find?_eq_none.mp h
  rw [hnil]
  simp

/-- Rows whose id differs from the update target survive an update untouched. -/
theorem mem_updateStat_of_ne (db : StatsDb) (target : Nat) (f : StatRow → StatRow)
    (r : StatRow) (hr : r ∈ db.rows) (hne : r.id ≠ target) :
    r ∈ (updateStat db target f).rows := by
  unfold updateStat
  exact List.mem_map.mpr ⟨r, hr, by simp [hne]⟩

/-- A row with the target id is replaced by its image under the update. -/
theorem mem_updateStat_of_eq (db : StatsDb) (target : Nat) (f : StatRow → StatRow)
    (r : StatRow) (hr : r ∈ db.rows) (heq : r.id = target) :
    f r ∈ (updateStat db target f).rows := by
  unfold updateStat
  exact List.mem_map.mpr ⟨r, hr, by simp [heq]⟩

/-! ## Helper lemmas about version numbering -/

/-- The maximum of a list of naturals (0 for the empty list). -/
def foldMax (l : List Nat) : Nat := l.foldr max 0

theorem le_foldMax {l : List Nat} {x : Nat} (hx : x ∈ l) : x ≤ foldMax l := by
  induction l with
  | nil => cases hx
  | cons y ys ih =>
    rcases List.mem_cons.mp hx with rfl | hx
    · exact Nat.le_max_left _ _
    · exact le_trans (ih hx) (Nat.le_max_right _ _)

theorem foldMax_le {l : List Nat} {m : Nat} (h : ∀ x ∈ l, x ≤ m) :
    foldMax l ≤ m := by
  induction l with
  | nil => exact Nat.zero_le m
  | cons y ys ih =>
    exact Nat.max_le.mpr
      ⟨h y (List.mem_cons_self y ys),
       ih (fun x hx => h x (List.mem_cons_of_mem _ hx))⟩

/-- The version numbers (in table order) of an article's version rows. -/
def numsOf (versions : List VersionRow) (aid : Nat) : List Nat :=
  (versions.filter (fun v => v.articleId == aid)).map (fun v => v.versionNumber)

/-- The `latestVersion` value as the routes compute it — the head of the
`ORDER BY versionNumber DESC` listing, or 0 — is the maximum existing version
number of the article (0 when it has none). -/
theorem latestVersionNumber_eq_foldMax (db : Db) (aid : Nat) :
    latestVersionNumber db aid = foldMax (numsOf db.versions aid) := by
  unfold latestVersionNumber getArticleVersions
  cases hs : sortKeyDesc (fun v => v.versionNumber)
      (db.versions.filter (fun v => v.articleId == aid)) with
  | nil =>
    have hperm := perm_sortKeyDesc (fun v : VersionRow => v.versionNumber)
      (db.versions.filter (fun v => v.articleId == aid))
    rw [hs] at hperm
    have hnil : db.versions.filter (fun v => v.articleId == aid) = [] := by
      have hlen := hperm.symm.length_eq
      simp only [List.length_nil] at hlen
      exact List.eq_nil_of_length_eq_zero hlen
    simp [orZeroNat, numsOf, hnil, foldMax]
  | cons h t =>
    obtain ⟨hmem, hmax⟩ := head_sortKeyDesc_is_max _ _ _ _ hs
    simp only [List.head?_cons, Option.map_some', orZeroNat]
    apply le_antisymm
    · exact le_foldMax (List.mem_map.mpr ⟨h, hmem, rfl⟩)
    · apply foldMax_le
      intro x hx
      obtain ⟨v, hv, rfl⟩ := List.mem_map.mp hx
      exact hmax v hv

/-- Membership of a version number of article `aid` in `numsOf`. -/
theorem mem_numsOf {versions : List VersionRow} {aid : Nat} {v : VersionRow}
    (hv : v ∈ versions) (ha : v.articleId = aid) :
    v.versionNumber ∈ numsOf versions aid := by
  unfold numsOf
  exact List.mem_map.mpr ⟨v, List.mem_filter.mpr ⟨hv, by simp [ha]⟩, rfl⟩

theorem numsOf_append_eq (versions : List VersionRow) (row : VersionRow)
    (aid : Nat) (h : row.articleId = aid) :
    numsOf (versions ++ [row]) aid = numsOf versions aid ++ [row.versionNumber] := by
  unfold numsOf
  rw [List.filter_append, List.map_append]
  simp [h]

theorem numsOf_append_ne (versions : List VersionRow) (row : VersionRow)
    (aid : Nat) (h : row.articleId ≠ aid) :
    numsOf (versions ++ [row]) aid = numsOf versions aid := by
  unfold numsOf
  rw [List.filter_append]
  simp [h]

/-- If a list of naturals is a permutation of `1..n`, its maximum is `n`. -/
theorem foldMax_of_perm_range {l : List Nat} {n : Nat}
    (h : List.Perm l (List.range' 1 n)) : foldMax l = n := by
  cases n with
  | zero =>
    have hnil : l = [] := by
      have hlen := h.length_eq
      simp only [List.length_range'] at hlen
      exact List.eq_nil_of_length_eq_zero hlen
    simp [hnil, foldMax]
  | succ m =>
    apply le_antisymm
    · apply foldMax_le
      intro x hx
      have hx' := h.mem_iff.mp hx
      rw [List.mem_range'_1] at hx'
      omega
    · exact le_foldMax (h.mem_iff.mpr (by rw [List.mem_range'_1]; omega))

/-! ## Sequential operation model for the versioning routes -/

/-- The version-number invariant: every article's version numbers form, as a
multiset, exactly `{1, …, n}` for some `n`. -/
def VersionInv (db : Db) : Prop :=
  ∀ aid, ∃ n, List.Perm (numsOf db.versions aid) (List.range' 1 n)

/-- The two version-writing requests of versions.ts. -/
inductive VersionOp where
  | createV (articleId : Nat) (p : VersionPayload) (now : Nat)
  | restoreV (articleId versionId : Nat) (userId : Option Nat) (now : Nat)

/-- Run one route handler to completion (atomically); a failed request leaves
the state unchanged. -/
def applyOp (db : Db) : VersionOp → Db
  | .createV aid p now =>
    match createVersionHandler db aid p now with
    | .ok (db', _) => db'
    | .error _ => db
  | .restoreV aid vid uid now =>
    match restoreHandler db aid vid uid now with
    | .ok res => res.db
    | .error _ => db

def applyOps (db : Db) : List VersionOp → Db
  | [] => db
  | op :: ops => applyOps (applyOp db op) ops

/-- Appending one row numbered `max + 1` for its article keeps the invariant. -/
theorem versionInv_append (versions : List VersionRow) (row : VersionRow)
    (h : ∀ aid, ∃ n, List.Perm (numsOf versions aid) (List.range' 1 n))
    (hn : row.versionNumber = foldMax (numsOf versions row.articleId) + 1) :
    ∀ aid, ∃ n, List.Perm (numsOf (versions ++ [row]) aid) (List.range' 1 n) := by
  intro aid
  by_cases ha : row.articleId = aid
  · obtain ⟨n, hp⟩ := h aid
    refine ⟨n + 1, ?_⟩
    rw [numsOf_append_eq versions row aid ha, hn, ha, foldMax_of_perm_range hp,
      List.range'_1_concat, Nat.add_comm 1 n]
    exact hp.append (List.Perm.refl [n + 1])
  · obtain ⟨n, hp⟩ := h aid
    exact ⟨n, by rw [numsOf_append_ne versions row aid ha]; exact hp⟩

theorem applyOp_createV_none (db : Db) (aid : Nat) (p : VersionPayload)
    (now : Nat) (hga : getArticle db aid = none) :
    applyOp db (.createV aid p now) = db := by
  simp [applyOp, createVersionHandler, hga]

theorem applyOp_createV_some (db : Db) (aid : Nat) (p : VersionPayload)
    (now : Nat) (a : Article) (hga : getArticle db aid = some a) :
    applyOp db (.createV aid p now) =
      { db with
          versions := db.versions ++
            [⟨db.nextVersionId, aid, p.title, p.description, p.content,
              latestVersionNumber db aid + 1, p.createdById, now⟩],
          nextVersionId := db.nextVersionId + 1 } := by
  simp [applyOp, createVersionHandler, versionWritePhase, createArticleVersion, hga]

theorem applyOp_restoreV_none (db : Db) (aid vid : Nat) (uid : Option Nat)
    (now : Nat) (hga : getArticle db aid = none) :
    applyOp db (.restoreV aid vid uid now) = db := by
  simp [applyOp, restoreHandler, hga]

theorem applyOp_restoreV_noVersion (db : Db) (aid vid : Nat) (uid : Option Nat)
    (now : Nat) (a : Article) (hga : getArticle db aid = some a)
    (hgv : getArticleVersion db vid = none) :
    applyOp db (.restoreV aid vid uid now) = db := by
  simp [applyOp, restoreHandler, hga, hgv]

theorem applyOp_restoreV_wrongArticle (db : Db) (aid vid : Nat)
    (uid : Option Nat) (now : Nat) (a : Article) (v : VersionRow)
    (hga : getArticle db aid = some a) (hgv : getArticleVersion db vid = some v)
    (hva : v.articleId ≠ aid) :
    applyOp db (.restoreV aid vid uid now) = db := by
  simp [applyOp, restoreHandler, hga, hgv, hva]

theorem applyOp_restoreV_some (db : Db) (aid vid : Nat) (uid : Option Nat)
    (now : Nat) (a : Article) (v : VersionRow)
    (hga : getArticle db aid = some a) (hgv : getArticleVersion db vid = some v)
    (hva : v.articleId = aid) :
    applyOp db (.restoreV aid vid uid now) =
      { db with
          articles := (updateArticle db aid
            ⟨some v.title, some v.description, some v.content⟩ now).1.articles,
          versions := db.versions ++
            [⟨db.nextVersionId, aid, v.title, v.description, v.content,
              latestVersionNumber db aid + 1, uid, now⟩],
          nextVersionId := db.nextVersionId + 1 } := by
  simp [applyOp, restoreHandler, hga, hgv, hva, updateArticle,
    createArticleVersion, latestVersionNumber, getArticleVersions]

theorem applyOp_preserves_inv (db : Db) (op : VersionOp) (h : VersionInv db) :
    VersionInv (applyOp db op) := by
  cases op with
  | createV aid p now =>
    cases hga : getArticle db aid with
    | none => rw [applyOp_createV_none db aid p now hga]; exact h
    | some a =>
      rw [applyOp_createV_some db aid p now a hga]
      intro aid'
      exact versionInv_append db.versions _ h
        (by simpa using (latestVersionNumber_eq_foldMax db aid)) aid'
  | restoreV aid vid uid now =>
    cases hga : getArticle db aid with
    | none => rw [applyOp_restoreV_none db aid vid uid now hga]; exact h
    | some a =>
      cases hgv : getArticleVersion db vid with
      | none => rw [applyOp_restoreV_noVersion db aid vid uid now a hga hgv]; exact h
      | some v =>
        by_cases hva : v.articleId = aid
        · rw [applyOp_restoreV_some db aid vid uid now a v hga hgv hva]
          intro aid'
          exact versionInv_append db.versions _ h
            (by simpa using (latestVersionNumber_eq_foldMax db aid)) aid'
        · rw [applyOp_restoreV_wrongArticle db aid vid uid now a v hga hgv hva]
          exact h

theorem applyOps_preserves_inv (db : Db) (ops : List VersionOp)
    (h : VersionInv db) : VersionInv (applyOps db ops) := by
  induction ops generalizing db with
  | nil => exact h
  | cons op ops ih => exact ih _ (applyOp_preserves_inv db op h)

/-- Under the invariant, the ascending version-number listing is literally
`[1, …, n]`. -/
theorem versionNumsAsc_of_inv (db : Db) (aid : Nat) {n : Nat}
    (h : List.Perm (numsOf db.versions aid) (List.range' 1 n)) :
    versionNumsAsc db aid = List.range' 1 n := by
  unfold versionNumsAsc getArticleVersions
  apply List.eq_of_perm_of_sorted (r := (· ≤ ·))
  · refine (List.reverse_perm _).trans ?_
    refine ((perm_sortKeyDesc (fun v : VersionRow => v.versionNumber)
      (db.versions.filter (fun v => v.articleId == aid))).map
        (fun v => v.versionNumber)).trans ?_
    exact h
  · exact List.pairwise_reverse.mpr
      (List.pairwise_map.mpr (pairwise_sortKeyDesc _ _))
  · exact (List.pairwise_lt_range' 1 n).imp (fun hab => Nat.le_of_lt hab)

/-! ## The claims -/

/-- C10: the storage-level delete operations `deleteArticle`, `deleteTopic`
and `deleteReference` return `true` for every id — including ids for which no
row exists — while removing any row that does carry the id. Deletion of a
nonexistent entity is reported as success at the storage interface. -/
theorem C10_delete_returns_true (db : Db) (id : Nat) :
    (deleteArticle db id).2 = true ∧
    (deleteTopic db id).2 = true ∧
    (deleteReference db id).2 = true ∧
    (∀ a ∈ (deleteArticle db id).1.articles, a.id ≠ id) ∧
    (∀ t ∈ (deleteTopic db id).1.topics, t.id ≠ id) ∧
    (∀ r ∈ (deleteReference db id).1.references, r.id ≠ id) := by
  refine ⟨rfl, rfl, rfl, ?_, ?_, ?_⟩
  · intro a ha
    have := (List.mem_filter.mp ha).2
    simpa using this
  · intro t ht
    have := (List.mem_filter.mp ht).2
    simpa using this
  · intro r hr
    have := (List.mem_filter.mp hr).2
    simpa using this

/-- C10 witness: the delete operations return `true` on a database holding no
row at all with the requested id. -/
theorem C10_witness :
    (deleteArticle ⟨[], [], [], [], 0⟩ 9).2 = true ∧
    (deleteTopic ⟨[], [], [], [], 0⟩ 9).2 = true ∧
    (deleteReference ⟨[], [], [], [], 0⟩ 9).2 = true := by
  obtain ⟨h1, h2, h3, -, -, -⟩ := C10_delete_returns_true ⟨[], [], [], [], 0⟩ 9
  exact ⟨h1, h2, h3⟩

/-- C8: provided the article exists, a version id that resolves to no version
and a version id that resolves to a version of a different article yield the
same `versionNotFound` error from both the single-version fetch route and the
restore route — the two failure causes are indistinguishable to the caller. -/
theorem C8_notFound_indistinguishable (db : Db) (aid vid : Nat)
    (uid : Option Nat) (now : Nat) (a : Article)
    (ha : getArticle db aid = some a)
    (hv : getArticleVersion db vid = none ∨
      ∃ v, getArticleVersion db vid = some v ∧ v.articleId ≠ aid) :
    getVersionHandler db aid vid = .error .versionNotFound ∧
    restoreHandler db aid vid uid now = .error .versionNotFound := by
  rcases hv with hnone | ⟨v, hsome, hva⟩
  · exact ⟨by simp [getVersionHandler, ha, hnone],
           by simp [restoreHandler, ha, hnone]⟩
  · exact ⟨by simp [getVersionHandler, ha, hsome, hva],
           by simp [restoreHandler, ha, hsome, hva]⟩

def c8Article : Article :=
  ⟨1, "A", "a", none, "body", none, none, "draft", none, 0, 0⟩

/-- A version row of a *different* article (id 2). -/
def c8ForeignVersion : VersionRow := ⟨7, 2, "B", none, "other", 1, none, 0⟩

def c8Db : Db := ⟨[], [c8Article], [], [c8ForeignVersion], 8⟩

/-- C8 witness: on a concrete database, the cross-article version id 7 and the
dangling version id 99 both produce the same `versionNotFound` signal. -/
theorem C8_witness :
    (getVersionHandler c8Db 1 7 = .error .versionNotFound ∧
     restoreHandler c8Db 1 7 none 5 = .error .versionNotFound) ∧
    (getVersionHandler c8Db 1 99 = .error .versionNotFound ∧
     restoreHandler c8Db 1 99 none 5 = .error .versionNotFound) :=
  ⟨C8_notFound_indistinguishable c8Db 1 7 none 5 c8Article (by decide)
      (Or.inr ⟨c8ForeignVersion, by decide, by decide⟩),
   C8_notFound_indistinguishable c8Db 1 99 none 5 c8Article (by decide)
      (Or.inl (by decide))⟩

/-- C9: `recordArticleView`'s frame. If no (articleId, today) row exists, a
row is inserted with views = 1 and shares = bounces = averageTimeOnPage = 0;
if one exists, views becomes oldViews + 1 and `updatedAt` is refreshed while
shares, bounces, averageTimeOnPage, date and articleId are untouched, and
rows with any other id are untouched. -/
theorem C9_recordView_frame (db : StatsDb) (aid d now : Nat) :
    (readStat db aid d = none →
      statRowsFor (recordArticleView db aid d now) aid d =
        [⟨db.nextId, aid, d, 1, 0, 0, 0, now⟩]) ∧
    (∀ st, readStat db aid d = some st →
      (∀ r ∈ db.rows, r.id ≠ st.id → r ∈ (recordArticleView db aid d now).rows) ∧
      (∀ r ∈ db.rows, r.id = st.id →
        ∃ r' ∈ (recordArticleView db aid d now).rows,
          r'.id = r.id ∧ r'.views = st.views + 1 ∧ r'.updatedAt = now ∧
          r'.shares = r.shares ∧ r'.bounces = r.bounces ∧
          r'.averageTimeOnPage = r.averageTimeOnPage ∧
          r'.date = r.date ∧ r'.articleId = r.articleId)) := by
  constructor
  · intro hnone
    unfold recordArticleView
    rw [hnone]
    exact statRowsFor_insert_of_none db aid d 1 0 0 0 now hnone
  · intro st hst
    unfold recordArticleView
    rw [hst]
    refine ⟨?_, ?_⟩
    · intro r hr hne
      exact mem_updateStat_of_ne db st.id _ r hr hne
    · intro r hr heq
      exact ⟨{ r with views := st.views + 1, updatedAt := now },
        mem_updateStat_of_eq db st.id _ r hr heq,
        rfl, rfl, rfl, rfl, rfl, rfl, rfl, rfl⟩

/-- C9 witness: both branches at concrete inputs — a first view inserts the
(1, 0, 0, 0) row; a second view bumps views to 2 keeping the rest. -/
theorem C9_witness :
    statRowsFor (recordArticleView StatsDb.empty 3 4 9) 3 4 =
      [⟨0, 3, 4, 1, 0, 0, 0, 9⟩] ∧
    (∃ r' ∈ (recordArticleView ⟨[⟨0, 3, 4, 1, 0, 0, 0, 9⟩], 1⟩ 3 4 11).rows,
      r'.id = (⟨0, 3, 4, 1, 0, 0, 0, 9⟩ : StatRow).id ∧ r'.views = 1 + 1 ∧
      r'.updatedAt = 11 ∧ r'.shares = 0 ∧ r'.bounces = 0 ∧
      r'.averageTimeOnPage = 0 ∧ r'.date = 4 ∧ r'.articleId = 3) :=
  ⟨(C9_recordView_frame StatsDb.empty 3 4 9).1 rfl,
   ((C9_recordView_frame ⟨[⟨0, 3, 4, 1, 0, 0, 0, 9⟩], 1⟩ 3 4 11).2
      ⟨0, 3, 4, 1, 0, 0, 0, 9⟩ rfl).2 ⟨0, 3, 4, 1, 0, 0, 0, 9⟩
      (List.mem_singleton.mpr rfl) rfl⟩

/-- JS `x || 0` agrees with `Option.getD 0`. -/
theorem orZeroInt_eq_getD (s : Option Int) : orZeroInt s = s.getD 0 := by
  cases s with
  | none => rfl
  | some t =>
    by_cases ht : t = 0
    · simp [orZeroInt, ht]
    · simp [orZeroInt, ht]

/-- The state after recording bounces with samples 10, 20 and 30 for
article 1 on day 0, starting from an empty stats table. -/
def c1Db3 : StatsDb :=
  recordArticleBounce (recordArticleBounce (recordArticleBounce
    StatsDb.empty 1 0 (some 10) 1) 1 0 (some 20) 2) 1 0 (some 30) 3

/-- The state `c1Db3` after a 4th bounce carrying the sample 0. -/
def c1Db4 : StatsDb := recordArticleBounce c1Db3 1 0 (some 0) 4

/-- C1 counterexample: after the samples 10, 20, 30, a 4th bounce with
`timeOnPage = 0` leaves `averageTimeOnPage` at 20 — not 15 as the claim's
formula `round((20*3 + 0) / 4)` demands — because `if (bounceData.timeOnPage)`
treats the sample 0 as absent and skips the recomputation. -/
theorem C1_counterexample :
    (statRowsFor c1Db4 1 0).map (fun r => (r.bounces, r.averageTimeOnPage))
        = [(4, 20)] ∧
    (statRowsFor c1Db4 1 0).map (fun r => r.averageTimeOnPage) ≠ [15] := by
  decide

/-- C1 (amended): when no (articleId, today) row exists, the insert carries
bounces = 1 and the sample (or 0); when a row exists, bounces increments and
the running average is recomputed by
`round((oldAverage * oldBounces + sample) / (oldBounces + 1))` — but only for
a present, nonzero sample; a missing or zero sample leaves the average
unchanged. Samples 10, 20, 30 yield average 20 with bounces = 3, and the 4th
sample 0 yields bounces = 4 with the average still 20. -/
theorem C1_bounce_average (db : StatsDb) (aid d : Nat) (sample : Option Int)
    (now : Nat) :
    (readStat db aid d = none →
      statRowsFor (recordArticleBounce db aid d sample now) aid d =
        [⟨db.nextId, aid, d, 0, 0, 1, sample.getD 0, now⟩]) ∧
    (∀ st, readStat db aid d = some st →
      ∃ r' ∈ (recordArticleBounce db aid d sample now).rows,
        r'.id = st.id ∧ r'.bounces = st.bounces + 1 ∧ r'.updatedAt = now ∧
        r'.averageTimeOnPage =
          (if truthyInt sample then
            jsRound (st.averageTimeOnPage * (st.bounces : Int) + sample.getD 0)
              (((st.bounces + 1 : Nat)) : Int)
          else st.averageTimeOnPage)) ∧
    (statRowsFor c1Db3 1 0).map (fun r => (r.bounces, r.averageTimeOnPage))
        = [(3, 20)] ∧
    (statRowsFor c1Db4 1 0).map (fun r => (r.bounces, r.averageTimeOnPage))
        = [(4, 20)] := by
  refine ⟨?_, ?_, by decide, by decide⟩
  · intro hnone
    unfold recordArticleBounce
    rw [hnone]
    rw [← orZeroInt_eq_getD]
    exact statRowsFor_insert_of_none db aid d 0 0 1 (orZeroInt sample) now hnone
  · intro st hst
    unfold recordArticleBounce
    rw [hst]
    exact ⟨_, mem_updateStat_of_eq db st.id _ st (readStat_mem db aid d st hst) rfl,
      rfl, rfl, rfl, rfl⟩

/-- C1 witness: the insert branch at sample 10 from the empty table, and the
update branch at the 4th bounce (sample 0) on the concrete table `c1Db3`. -/
theorem C1_witness :
    statRowsFor (recordArticleBounce StatsDb.empty 1 0 (some 10) 1) 1 0 =
      [⟨0, 1, 0, 0, 0, 1, 10, 1⟩] ∧
    (∃ r' ∈ (recordArticleBounce c1Db3 1 0 (some 0) 4).rows,
      r'.id = (⟨0, 1, 0, 0, 0, 3, 20, 3⟩ : StatRow).id ∧ r'.bounces = 3 + 1 ∧
      r'.updatedAt = 4 ∧
      r'.averageTimeOnPage =
        (if truthyInt (some 0) then
          jsRound (20 * ((3 : Nat) : Int) + 0) (((3 + 1 : Nat)) : Int)
        else 20)) :=
  ⟨(C1_bounce_average StatsDb.empty 1 0 (some 10) 1).1 rfl,
   (C1_bounce_average c1Db3 1 0 (some 0) 4).2.1 ⟨0, 1, 0, 0, 0, 3, 20, 3⟩
     (by decide)⟩

/-- C6 counterexample: two overlapping `recordArticleView` calls that both run
their read phase against the empty table before either write commits; each
sees no row and inserts, leaving two (articleId, day) rows with views = 1 —
not one row with views = 2 as the claim requires for M = 2. -/
theorem C6_counterexample :
    (statRowsFor
        (viewWrite (viewWrite StatsDb.empty 1 0 5 (readStat StatsDb.empty 1 0))
          1 0 5 (readStat StatsDb.empty 1 0)) 1 0).map (fun r => r.views)
      = [1, 1] ∧
    (statRowsFor
        (viewWrite (viewWrite StatsDb.empty 1 0 5 (readStat StatsDb.empty 1 0))
          1 0 5 (readStat StatsDb.empty 1 0)) 1 0).map (fun r => r.views)
      ≠ [2] := by
  decide

/-- Closed form of `m + 1` sequential views from the empty table. -/
theorem iterateViews_empty_closed (aid d now : Nat) :
    ∀ m, iterateViews StatsDb.empty aid d now (m + 1) =
      ⟨[⟨0, aid, d, m + 1, 0, 0, 0, now⟩], 1⟩ := by
  intro m
  induction m with
  | zero =>
    simp [iterateViews, recordArticleView, readStat, viewWrite, insertStat,
      StatsDb.empty]
  | succ k ih =>
    unfold iterateViews
    rw [ih]
    simp [recordArticleView, readStat, viewWrite, updateStat, List.find?_cons]

/-- C6 (amended): M *sequential* `recordArticleView` calls for one
(articleId, day) starting from the empty table leave exactly one matching row,
with views = M; overlapping calls can instead duplicate the row (see the
counterexample), so the claim holds only without concurrent interleaving. -/
theorem C6_sequential_views (aid d now M : Nat) (h : 1 ≤ M) :
    (statRowsFor (iterateViews StatsDb.empty aid d now M) aid d).map
        (fun r => r.views) = [M] ∧
    (statRowsFor (iterateViews StatsDb.empty aid d now M) aid d).length = 1 := by
  obtain ⟨m, rfl⟩ : ∃ m, M = m + 1 := ⟨M - 1, by omega⟩
  rw [iterateViews_empty_closed aid d now m]
  constructor
  · simp [statRowsFor]
  · simp [statRowsFor]

/-- C6 witness: three sequential views yield one row with views = 3. -/
theorem C6_witness :
    (statRowsFor (iterateViews StatsDb.empty 1 2 9 3) 1 2).map
        (fun r => r.views) = [3] ∧
    (statRowsFor (iterateViews StatsDb.empty 1 2 9 3) 1 2).length = 1 :=
  C6_sequential_views 1 2 9 3 (by decide)

/-- C4: a successfully created version is numbered one above the highest
existing version number of the article (`versions[0]?.versionNumber || 0` read
off the descending listing, plus one); strictly above every existing number;
and exactly 1 when the article has no version yet. -/
theorem C4_nextVersionNumber (db : Db) (aid : Nat) (p : VersionPayload)
    (now : Nat) (db' : Db) (row : VersionRow)
    (h : createVersionHandler db aid p now = .ok (db', row)) :
    row.versionNumber = foldMax (numsOf db.versions aid) + 1 ∧
    (∀ v ∈ db.versions, v.articleId = aid → v.versionNumber < row.versionNumber) ∧
    ((∀ v ∈ db.versions, v.articleId ≠ aid) → row.versionNumber = 1) := by
  cases hga : getArticle db aid with
  | none => simp [createVersionHandler, hga] at h
  | some a =>
    have heq : createVersionHandler db aid p now =
        .ok (versionWritePhase db aid p (latestVersionNumber db aid) now) := by
      simp [createVersionHandler, hga]
    rw [heq] at h
    have hpair := Except.ok.inj h
    have hrow : row = (versionWritePhase db aid p (latestVersionNumber db aid) now).2 :=
      congrArg Prod.snd hpair.symm
    have hvn : row.versionNumber = latestVersionNumber db aid + 1 := by
      rw [hrow]; rfl
    rw [latestVersionNumber_eq_foldMax] at hvn
    refine ⟨hvn, ?_, ?_⟩
    · intro v hv ha
      have := le_foldMax (mem_numsOf hv ha)
      omega
    · intro hall
      have hnil : numsOf db.versions aid = [] := by
        unfold numsOf
        have hfe : db.versions.filter (fun v => v.articleId == aid) = [] :=
          List.filter_eq_nil_iff.mpr (fun v hv => by simp [hall v hv])
        rw [hfe]
        rfl
      rw [hnil] at hvn
      simpa [foldMax] using hvn

def c4Db : Db :=
  ⟨[], [⟨1, "T", "t", none, "c", none, none, "draft", none, 0, 0⟩], [],
   [⟨10, 1, "T", none, "c", 1, none, 0⟩], 11⟩

/-- C4 witness: creating a version on an article whose only version is
numbered 1 produces version number 2 = max + 1. -/
theorem C4_witness :
    (⟨11, 1, "T2", none, "c2", 2, none, 5⟩ : VersionRow).versionNumber =
        foldMax (numsOf c4Db.versions 1) + 1 ∧
    (∀ v ∈ c4Db.versions, v.articleId = 1 →
      v.versionNumber <
        (⟨11, 1, "T2", none, "c2", 2, none, 5⟩ : VersionRow).versionNumber) ∧
    ((∀ v ∈ c4Db.versions, v.articleId ≠ 1) →
      (⟨11, 1, "T2", none, "c2", 2, none, 5⟩ : VersionRow).versionNumber = 1) :=
  C4_nextVersionNumber c4Db 1 ⟨"T2", none, "c2", none⟩ 5
    ⟨[], [⟨1, "T", "t", none, "c", none, none, "draft", none, 0, 0⟩], [],
     [⟨10, 1, "T", none, "c", 1, none, 0⟩, ⟨11, 1, "T2", none, "c2", 2, none, 5⟩],
     12⟩
    ⟨11, 1, "T2", none, "c2", 2, none, 5⟩ rfl

/-- C3: a successful restore overwrites the article's title, description and
content with the target version's fields, appends exactly one new version row
— numbered max + 1 and carrying the target's content — leaves the target
version row itself unchanged, and strictly increases the article's version
count. -/
theorem C3_restore_forward (db : Db) (aid vid : Nat) (uid : Option Nat)
    (now : Nat) (res : RestoreResult) (v : VersionRow)
    (hv : getArticleVersion db vid = some v)
    (h : restoreHandler db aid vid uid now = .ok res) :
    (∀ b ∈ db.articles, b.id = aid →
      { b with title := v.title, description := v.description,
               content := v.content, updatedAt := now } ∈ res.db.articles) ∧
    (∃ newRow, res.db.versions = db.versions ++ [newRow] ∧
      newRow.content = v.content ∧ newRow.articleId = aid ∧
      newRow.versionNumber = foldMax (numsOf db.versions aid) + 1) ∧
    getArticleVersion res.db vid = some v ∧
    (db.versions.filter (fun w => w.articleId == aid)).length <
      (res.db.versions.filter (fun w => w.articleId == aid)).length := by
  cases hga : getArticle db aid with
  | none => simp [restoreHandler, hga] at h
  | some a =>
    by_cases hva : v.articleId = aid
    · have heq : restoreHandler db aid vid uid now =
          .ok ⟨(createArticleVersion
                (updateArticle db aid
                  ⟨some v.title, some v.description, some v.content⟩ now).1
                ⟨aid, v.title, v.description, v.content,
                 latestVersionNumber (updateArticle db aid
                   ⟨some v.title, some v.description, some v.content⟩ now).1 aid + 1,
                 uid⟩ now).1,
               (updateArticle db aid
                 ⟨some v.title, some v.description, some v.content⟩ now).2,
               v.versionNumber⟩ := by
        simp [restoreHandler, hga, hv, hva]
      rw [heq] at h
      have hres := Except.ok.inj h
      subst hres
      refine ⟨?_, ?_, ?_, ?_⟩
      · intro b hb hbid
        show _ ∈ (updateArticle db aid
          ⟨some v.title, some v.description, some v.content⟩ now).1.articles
        unfold updateArticle
        exact List.mem_map.mpr ⟨b, hb, by simp [hbid]⟩
      · refine ⟨⟨db.nextVersionId, aid, v.title, v.description, v.content,
          latestVersionNumber (updateArticle db aid
            ⟨some v.title, some v.description, some v.content⟩ now).1 aid + 1,
          uid, now⟩, rfl, rfl, rfl, ?_⟩
        exact congrArg (· + 1) (latestVersionNumber_eq_foldMax
          (updateArticle db aid
            ⟨some v.title, some v.description, some v.content⟩ now).1 aid)
      · have h3 : ∀ (rows : List VersionRow) (nr : VersionRow),
            rows.find? (fun w => w.id == vid) = some v →
            (rows ++ [nr]).find? (fun w => w.id == vid) = some v := by
          intro rows nr hf
          rw [List.find?_append, hf]
          rfl
        exact h3 db.versions _ hv
      · have h4 : ∀ (rows : List VersionRow) (nr : VersionRow),
            nr.articleId = aid →
            (rows.filter (fun w => w.articleId == aid)).length <
              ((rows ++ [nr]).filter (fun w => w.articleId == aid)).length := by
          intro rows nr hnr
          rw [List.filter_append]
          simp [hnr]
        exact h4 db.versions _ rfl
    · simp [restoreHandler, hga, hv, hva] at h

def c3Db : Db :=
  ⟨[], [⟨1, "New", "t", none, "new content", none, none, "draft", none, 0, 50⟩],
   [],
   [⟨10, 1, "Old", none, "old content", 1, none, 10⟩,
    ⟨11, 1, "New", none, "new content", 2, none, 20⟩], 12⟩

/-- The state `restoreHandler c3Db 1 10 none 99` succeeds with. -/
def c3Res : RestoreResult :=
  ⟨⟨[], [⟨1, "Old", "t", none, "old content", none, none, "draft", none, 0, 99⟩],
    [],
    [⟨10, 1, "Old", none, "old content", 1, none, 10⟩,
     ⟨11, 1, "New", none, "new content", 2, none, 20⟩,
     ⟨12, 1, "Old", none, "old content", 3, none, 99⟩], 13⟩,
   some ⟨1, "Old", "t", none, "old content", none, none, "draft", none, 0, 99⟩,
   1⟩

/-- C3 witness: restoring article 1 of `c3Db` to its version 1 (row id 10). -/
theorem C3_witness :
    (∀ b ∈ c3Db.articles, b.id = 1 →
      { b with title := "Old", description := (none : Option String),
               content := "old content", updatedAt := 99 } ∈ c3Res.db.articles) ∧
    (∃ newRow, c3Res.db.versions = c3Db.versions ++ [newRow] ∧
      newRow.content = "old content" ∧ newRow.articleId = 1 ∧
      newRow.versionNumber = foldMax (numsOf c3Db.versions 1) + 1) ∧
    getArticleVersion c3Res.db 10 =
      some ⟨10, 1, "Old", none, "old content", 1, none, 10⟩ ∧
    (c3Db.versions.filter (fun w => w.articleId == 1)).length <
      (c3Res.db.versions.filter (fun w => w.articleId == 1)).length :=
  C3_restore_forward c3Db 1 10 none 99 c3Res
    ⟨10, 1, "Old", none, "old content", 1, none, 10⟩ rfl rfl

def c5Payload : VersionPayload := ⟨"T2", none, "c2", none⟩

/-- An article (id 1) whose single version is numbered 1. -/
def c5Db0 : Db :=
  ⟨[], [⟨1, "T", "t", none, "c", none, none, "draft", none, 0, 0⟩], [],
   [⟨10, 1, "T", none, "c", 1, none, 0⟩], 11⟩

/-- Two racing version creations that both run their read phase against
`c5Db0` (both see latest = 1) before either write phase commits. -/
def c5RaceDb : Db :=
  (versionWritePhase
    (versionWritePhase c5Db0 1 c5Payload (latestVersionNumber c5Db0 1) 1).1
    1 c5Payload (latestVersionNumber c5Db0 1) 2).1

/-- C5 counterexample: under the interleaving in `c5RaceDb`, article 1's
version numbers ordered by versionNumber are [1, 2, 2] — the number 2
repeats, so the sequence is not strictly increasing. -/
theorem C5_counterexample :
    versionNumsAsc c5RaceDb 1 = [1, 2, 2] ∧
    ¬ List.Chain' (fun a b => a < b) (versionNumsAsc c5RaceDb 1) := by
  have h1 : versionNumsAsc c5RaceDb 1 = [1, 2, 2] := by decide
  refine ⟨h1, ?_⟩
  rw [h1]
  intro hc
  simp [List.chain'_cons] at hc

/-- C5 (amended): for *sequential* (atomic, non-overlapping) executions of any
sequence of version-create and restore requests from a state satisfying the
version-number invariant (each article's numbers are exactly 1..n), every
article's versions ordered by versionNumber form a strictly increasing
sequence starting at 1. Overlapping executions can instead duplicate a number
(see the counterexample). -/
theorem C5_sequential_monotonic (db0 : Db) (ops : List VersionOp) (aid : Nat)
    (h : VersionInv db0) :
    List.Chain' (fun a b => a < b) (versionNumsAsc (applyOps db0 ops) aid) ∧
    (versionNumsAsc (applyOps db0 ops) aid ≠ [] →
      (versionNumsAsc (applyOps db0 ops) aid).head? = some 1) := by
  obtain ⟨n, hp⟩ := applyOps_preserves_inv db0 ops h aid
  rw [versionNumsAsc_of_inv _ _ hp]
  constructor
  · exact List.Pairwise.chain' ((List.pairwise_lt_range' 1 n).imp (fun hab => hab))
  · intro hne
    cases n with
    | zero => simp at hne
    | succ m => rfl

/-- An article with no versions yet, for the C5 witness. -/
def c5WitnessDb : Db :=
  ⟨[], [⟨1, "T", "t", none, "c", none, none, "draft", none, 0, 0⟩], [], [], 0⟩

/-- C5 witness: a sequential create followed by a restore on a fresh article
keeps the numbers strictly increasing from 1. -/
theorem C5_witness :
    List.Chain' (fun a b => a < b)
      (versionNumsAsc
        (applyOps c5WitnessDb [.createV 1 c5Payload 3, .restoreV 1 0 none 4]) 1) ∧
    (versionNumsAsc
        (applyOps c5WitnessDb [.createV 1 c5Payload 3, .restoreV 1 0 none 4]) 1 ≠ [] →
      (versionNumsAsc
        (applyOps c5WitnessDb [.createV 1 c5Payload 3, .restoreV 1 0 none 4]) 1).head?
        = some 1) :=
  C5_sequential_monotonic c5WitnessDb [.createV 1 c5Payload 3, .restoreV 1 0 none 4]
    1 (fun _ => ⟨0, by simp [numsOf, c5WitnessDb]⟩)

/-- An element of a descending sort is either among the first `n` entries or
bounded by each of them. -/
theorem take_or_bounded {β : Type} (k : β → Nat) (l : List β) (x : β) (n : Nat)
    (hx : x ∈ sortKeyDesc k l) :
    x ∈ (sortKeyDesc k l).take n ∨
      ∀ e ∈ (sortKeyDesc k l).take n, k x ≤ k e := by
  have hsplit : sortKeyDesc k l = (sortKeyDesc k l).take n ++ (sortKeyDesc k l).drop n :=
    (List.take_append_drop n (sortKeyDesc k l)).symm
  rw [hsplit] at hx
  rcases List.mem_append.mp hx with h | h
  · exact Or.inl h
  · right
    intro e he
    have hp := pairwise_sortKeyDesc k l
    rw [hsplit] at hp
    exact (List.pairwise_append.mp hp).2.2 e he x h

def c2ArticleA : Article :=
  ⟨1, "A", "a", none, "x", none, none, "published", none, 0, 0⟩

def c2ArticleB : Article :=
  ⟨2, "B", "b", none, "y", none, none, "published", none, 0, 0⟩

/-- Article 1 is viewed once at time 10; article 2 twice, at times 100, 101. -/
def c2Views : List ViewRow := [⟨1, 1, 10⟩, ⟨2, 2, 100⟩, ⟨3, 2, 101⟩]

/-- C2 counterexample: with the range [0, 50] — containing only article 1's
view — the spec's range-restricted ranking is [(1, 1)], but the code ranks
article 2 first with its out-of-range views counted: [(2, 2), (1, 1)]. The
query behind `topArticles` never receives the date range. -/
theorem C2_counterexample :
    overviewTopArticles [c2ArticleA, c2ArticleB] c2Views ≠
      topArticlesByViewsWithinRange [c2ArticleA, c2ArticleB] c2Views
        (some 0) (some 50) ∧
    (overviewTopArticles [c2ArticleA, c2ArticleB] c2Views).map
        (fun e => (e.id, e.views)) = [(2, 2), (1, 1)] ∧
    (topArticlesByViewsWithinRange [c2ArticleA, c2ArticleB] c2Views
        (some 0) (some 50)).map (fun e => (e.id, e.views)) = [(1, 1)] := by
  decide

/-- C2 (amended): `getOverviewStats` returns as `topArticles` the top 5
articles ranked by raw view-log count over *all* time — the date range is not
applied to this component. Every returned entry carries an article's identity,
title and its total view count; entries are ordered by count descending; at
most 5 are returned; and any viewed article left out has a count bounded by
each returned entry's. -/
theorem C2_topArticles_ranking (arts : List Article) (vs : List ViewRow) :
    (∀ e ∈ overviewTopArticles arts vs,
      ∃ a ∈ arts, e.id = a.id ∧ e.title = a.title ∧ e.views = viewCount vs a.id) ∧
    List.Pairwise (fun e f => f.views ≤ e.views) (overviewTopArticles arts vs) ∧
    (overviewTopArticles arts vs).length ≤ 5 ∧
    (∀ a ∈ arts, 0 < viewCount vs a.id →
      (⟨a.id, a.title, viewCount vs a.id⟩ : TopArticleEntry) ∈
          overviewTopArticles arts vs ∨
        ∀ e ∈ overviewTopArticles arts vs, viewCount vs a.id ≤ e.views) := by
  refine ⟨?_, ?_, ?_, ?_⟩
  · intro e he
    have he1 := List.mem_of_mem_take he
    have he2 := (mem_sortKeyDesc _ _ _).mp he1
    obtain ⟨a, ha, rfl⟩ := List.mem_map.mp he2
    exact ⟨a, (List.mem_filter.mp ha).1, rfl, rfl, rfl⟩
  · exact List.Pairwise.sublist (List.take_sublist _ _) (pairwise_sortKeyDesc _ _)
  · exact List.length_take_le _ _
  · intro a ha hc
    exact take_or_bounded (fun e : TopArticleEntry => e.views)
      ((arts.filter (fun a => decide (0 < viewCount vs a.id))).map
        (fun a => ⟨a.id, a.title, viewCount vs a.id⟩))
      ⟨a.id, a.title, viewCount vs a.id⟩ 5
      ((mem_sortKeyDesc _ _ _).mpr
        (List.mem_map.mpr ⟨a, List.mem_filter.mpr ⟨ha, by simpa using hc⟩, rfl⟩))

/-- C2 witness: the ranking properties at the concrete two-article view log. -/
theorem C2_witness :
    (∀ e ∈ overviewTopArticles [c2ArticleA, c2ArticleB] c2Views,
      ∃ a ∈ [c2ArticleA, c2ArticleB], e.id = a.id ∧ e.title = a.title ∧
        e.views = viewCount c2Views a.id) ∧
    List.Pairwise (fun e f => f.views ≤ e.views)
      (overviewTopArticles [c2ArticleA, c2ArticleB] c2Views) ∧
    (overviewTopArticles [c2ArticleA, c2ArticleB] c2Views).length ≤ 5 ∧
    (∀ a ∈ [c2ArticleA, c2ArticleB], 0 < viewCount c2Views a.id →
      (⟨a.id, a.title, viewCount c2Views a.id⟩ : TopArticleEntry) ∈
          overviewTopArticles [c2ArticleA, c2ArticleB] c2Views ∨
        ∀ e ∈ overviewTopArticles [c2ArticleA, c2ArticleB] c2Views,
          viewCount c2Views a.id ≤ e.views) :=
  C2_topArticles_ranking [c2ArticleA, c2ArticleB] c2Views

def c7SalahImportance : Article :=
  ⟨1, "Salah Importance", "salah-importance", none, "body one", none, none,
   "published", none, 0, 100⟩

def c7QuranStudy : Article :=
  ⟨2, "Quran Study", "quran-study", none, "body two", none, none,
   "draft", none, 0, 150⟩

def c7SalahHistory : Article :=
  ⟨3, "Salah History", "salah-history", none, "body three", none, none,
   "published", none, 0, 200⟩

def c7Db : Db :=
  ⟨[], [c7SalahImportance, c7QuranStudy, c7SalahHistory], [], [], 0⟩

/-- Search "salah" filtered to status "published", default paging. -/
def c7Options : GetArticlesOptions :=
  ⟨none, some "published", none, some "salah", none, none⟩

/-- C7: `getArticles` computes the total over the same conjunctive filter
predicate as the page; every returned article is a table row matching the
filters (topic/status/author equality plus case-insensitive substring search
across title, description and content); the page is ordered
most-recently-updated first and bounded by the limit. On the concrete
scenario — "Salah Importance" (published, updatedAt 100), "Quran Study"
(draft, 150), "Salah History" (published, 200) — searching "salah" with
status "published" returns exactly [Salah History, Salah Importance] with
total = 2. -/
theorem C7_getArticles (db : Db) (o : GetArticlesOptions) :
    (getArticles db o).total = (db.articles.filter (articleMatches o)).length ∧
    (∀ a ∈ (getArticles db o).articles,
      a ∈ db.articles ∧ articleMatches o a = true) ∧
    List.Pairwise (fun a b => b.updatedAt ≤ a.updatedAt)
      (getArticles db o).articles ∧
    (getArticles db o).articles.length ≤ o.limit.getD 10 ∧
    (getArticles c7Db c7Options).articles = [c7SalahHistory, c7SalahImportance] ∧
    (getArticles c7Db c7Options).total = 2 := by
  refine ⟨rfl, ?_, ?_, ?_, by decide, by decide⟩
  · intro a ha
    have h1 := List.mem_of_mem_take ha
    have h2 := List.mem_of_mem_drop h1
    have h3 := (mem_sortKeyDesc _ _ _).mp h2
    exact ⟨(List.mem_filter.mp h3).1, (List.mem_filter.mp h3).2⟩
  · exact List.Pairwise.sublist
      ((List.take_sublist _ _).trans (List.drop_sublist _ _))
      (pairwise_sortKeyDesc _ _)
  · exact List.length_take_le _ _

/-- C7 witness: the listing properties at the concrete scenario database. -/
theorem C7_witness :
    (getArticles c7Db c7Options).total =
      (c7Db.articles.filter (articleMatches c7Options)).length ∧
    (∀ a ∈ (getArticles c7Db c7Options).articles,
      a ∈ c7Db.articles ∧ articleMatches c7Options a = true) ∧
    List.Pairwise (fun a b => b.updatedAt ≤ a.updatedAt)
      (getArticles c7Db c7Options).articles ∧
    (getArticles c7Db c7Options).articles.length ≤ c7Options.limit.getD 10 ∧
    (getArticles c7Db c7Options).articles = [c7SalahHistory, c7SalahImportance] ∧
    (getArticles c7Db c7Options).total = 2 :=
  C7_getArticles c7Db c7Options

end TruthLens
